import Mathlib

/-!
Verification development for the DMOJ-derived grading engine.

Byte strings are modelled as `List Nat` (byte values), paths as `List Char`.
Each definition is a shallow embedding of the correspondingly named Python
function; the file name of the source is given in each doc comment.
-/

/-! ### Byte strings and the checker modules -/

/-- Whitespace bytes stripped by Python `bytes.strip()`:
tab, LF, VT, FF, CR, space. -/
def isSpaceB (b : Nat) : Bool := b == 32 || (9 ≤ b && b ≤ 13)

/-- Leading-whitespace strip on a byte string. -/
def lstripB (l : List Nat) : List Nat := l.dropWhile isSpaceB

/-- Trailing-whitespace strip on a byte string. -/
def rstripB (l : List Nat) : List Nat := (l.reverse.dropWhile isSpaceB).reverse

/-- Python `bytes.strip()`: strips leading and trailing whitespace. -/
def stripB (l : List Nat) : List Nat := rstripB (lstripB l)

/-- Fallback `standard(judge_output, process_output)` defined in both
`src/dmoj/checkers/standard.py` and `src/dmoj/checkers/identical.py`
(the C extension import fails, so this fallback is the code that runs):
`judge_output.strip() == process_output.strip()`. -/
def standardFallback (judge process : List Nat) : Bool :=
  stripB judge == stripB process

/-- Model of `check(process_output, judge_output)` in
`src/dmoj/checkers/standard.py`: it calls
`standard(utf8bytes(judge_output), utf8bytes(process_output))`;
`utf8bytes` is the identity on byte strings. -/
def standardCheck (process judge : List Nat) : Bool :=
  standardFallback judge process

/-- Modelled from the spec: the normalization the spec attributes to the
standard checker ("equal after stripping trailing whitespace and
normalizing line endings"): CRLF pairs become LF. -/
def normalizeCRLF : List Nat → List Nat
  | 13 :: 10 :: rest => 10 :: normalizeCRLF rest
  | x :: rest => x :: normalizeCRLF rest
  | [] => []

/-- Modelled from the spec: normalize line endings, then strip trailing
whitespace. -/
def specStdNormalize (l : List Nat) : List Nat := rstripB (normalizeCRLF l)

/-- Modelled from the spec: equality of the two outputs under the spec's
normalization for the standard checker. -/
def specStdEqual (process judge : List Nat) : Bool :=
  specStdNormalize process == specStdNormalize judge

/-- Modelled from the spec (`src/dmoj/result.py` is not in the source tree):
the checker result record with fields `passed`, `points`, `feedback`,
`extended_feedback`. -/
structure CheckerResult where
  passed : Bool
  points : ℚ
  feedback : Option String := none
  extended_feedback : Option String := none
deriving DecidableEq

/-- Checker return value: either a bare boolean or a `CheckerResult`
(`CheckerOutput` in `src/dmoj/checkers/__init__.py`'s callers). -/
inductive CheckerOutput
  | ofBool (b : Bool)
  | ofResult (r : CheckerResult)
deriving DecidableEq

/-- Model of `check(process_output, judge_output, pe_allowed)` in
`src/dmoj/checkers/identical.py`: exact byte equality passes; otherwise a
failed `CheckerResult(False, 0)` whose feedback is the presentation-error
message exactly when `pe_allowed` and the fallback `standard` comparison
(whole-string strip equality) holds. -/
def identicalCheck (process judge : List Nat) (peAllowed : Bool) : CheckerOutput :=
  if judge == process then CheckerOutput.ofBool true
  else CheckerOutput.ofResult
    { passed := false
      points := 0
      feedback :=
        if peAllowed && standardFallback judge process then
          some "Presentation Error, check your whitespace"
        else none }

/-- Modelled from the spec: helper for collapsing whitespace runs; the flag
records whether the current position is inside a whitespace run already
emitted as a single space. -/
def collapseWSAux : Bool → List Nat → List Nat
  | _, [] => []
  | inRun, x :: rest =>
    if isSpaceB x then
      if inRun then collapseWSAux true rest
      else 32 :: collapseWSAux true rest
    else x :: collapseWSAux false rest

/-- Modelled from the spec: collapse every maximal run of whitespace bytes
into a single space (the "collapse-whitespace" half of the spec's
presentation-error normalization). -/
def collapseWS (l : List Nat) : List Nat := collapseWSAux false l

/-- Modelled from the spec: trim plus collapse-whitespace normalization. -/
def trimCollapse (l : List Nat) : List Nat := stripB (collapseWS l)

/-! ### Path handling for `BaseExecutor.launch` symlink setup -/

/-- Split a path (list of characters) on the separator character, as
Python `str.split("/")` does; an absolute path yields a leading empty
component. -/
def splitSlashAux : List Char → List Char → List (List Char)
  | [], acc => [acc.reverse]
  | c :: rest, acc =>
    if c == '/' then acc.reverse :: splitSlashAux rest []
    else splitSlashAux rest (c :: acc)

/-- Path split on the separator. -/
def splitSlash (l : List Char) : List (List Char) := splitSlashAux l []

/-- Model of `os.path.join(dir, src)` for the cases used by `launch`:
an absolute `src` replaces `dir`; otherwise the two are joined with a
separator (`dir` never ends in a separator here). -/
def pyJoin (dir src : List Char) : List Char :=
  match src with
  | '/' :: _ => src
  | _ => dir ++ '/' :: src

/-- Component-stack normalization used by `os.path.normpath` on absolute
paths: empty and `.` components vanish, `..` pops the newest component
(at the root it is dropped, as Python does). -/
def normStack : List (List Char) → List (List Char) → List (List Char)
  | stack, [] => stack.reverse
  | stack, comp :: rest =>
    if comp = [] ∨ comp = ['.'] then normStack stack rest
    else if comp = ['.', '.'] then normStack stack.tail rest
    else normStack (comp :: stack) rest

/-- Model of `os.path.abspath` on an already absolute path (equivalently
`os.path.normpath`): normalize the components and re-render. -/
def normAbsC (l : List Char) : List Char :=
  '/' :: List.intercalate ['/'] (normStack [] (splitSlash l))

/-- Character-wise longest common run of two lists, the semantics of
`os.path.commonprefix` (which compares strings character by character,
not path components). -/
def commonRun : List Char → List Char → List Char
  | x :: xs, y :: ys => if x = y then x :: commonRun xs ys else []
  | _, _ => []

/-- Model of the admission test in `BaseExecutor.launch`
(`src/dmoj/executors/base_executor.py` lines 132-139):
`src = os.path.abspath(os.path.join(self._dir, src))` followed by
`os.path.commonprefix([src, self._dir]) == self._dir`; when this returns
`false` the code raises `InternalError`, otherwise it creates the
symlink at the computed `src` path. -/
def symlinkAllowed (dir src : List Char) : Bool :=
  commonRun (normAbsC (pyJoin dir src)) dir == dir

/-- Check whether a path component list `p` is a true prefix match. -/
def isPref : List Char → List Char → Bool
  | [], _ => true
  | _, [] => false
  | x :: xs, y :: ys => x == y && isPref xs ys

/-- Modelled from the spec: a normalized path lies inside the working
directory when it is the directory itself or extends it past a path
separator. -/
def insideDir (dir p : List Char) : Bool :=
  p == dir || isPref (dir ++ ['/']) p

/-! ### Result records and flags -/

/-- Verdict bit AC. Flag values are modelled from the spec's bitset table
(`src/dmoj/result.py` is not in the source tree): AC=1, WA=2, RTE=4,
TLE=8, MLE=16, OLE=32, IR=64, SC=128. -/
def Result.AC : Nat := 1

/-- Verdict bit WA. -/
def Result.WA : Nat := 2

/-- Verdict bit RTE. -/
def Result.RTE : Nat := 4

/-- Verdict bit TLE. -/
def Result.TLE : Nat := 8

/-- Verdict bit MLE. -/
def Result.MLE : Nat := 16

/-- Verdict bit OLE. -/
def Result.OLE : Nat := 32

/-- Verdict bit IR. -/
def Result.IR : Nat := 64

/-- Verdict bit SC. -/
def Result.SC : Nat := 128

/-- Modelled from the spec: the per-case `Result` record
(`src/dmoj/result.py` is not in the source tree; fields and defaults
follow spec section 3: zeroed flag bitset, zero points and times,
`max_memory` 0 when unmeasured, empty feedback and output). -/
structure Result where
  result_flag : Nat := 0
  points : ℚ := 0
  execution_time : ℚ := 0
  max_memory : Nat := 0
  wall_clock_time : ℚ := 0
  context_switches : Nat × Nat := (0, 0)
  proc_output : List Nat := []
  feedback : Option String := none
  extended_feedback : Option String := none
  runtime_version : String := ""
deriving DecidableEq

/-- Python truthiness of an optional string used by
`check.feedback or result.feedback`. -/
def orElseStr : Option String → Option String → Option String
  | some s, y => if s = "" then y else some s
  | none, y => y

/-- Model of the attributes carried by a `subprocess.Popen` object at the
time `populate_result` inspects it: its return code, and the dynamically
attached `is_tle` and `execution_time` attributes (`none` models an
absent attribute, matching the `hasattr` tests in the code). -/
structure Proc where
  returncode : Int
  is_tle : Option Bool := none
  execution_time : Option ℚ := none
deriving DecidableEq

/-- Model of `BaseExecutor.populate_result`
(`src/dmoj/executors/base_executor.py` lines 105-119): copies
`process.execution_time` when the attribute exists (0.0 otherwise), zeroes
`max_memory`, `wall_clock_time` and `context_switches`, records the
runtime version string, then ORs RTE for a nonzero return code and TLE
when `process.is_tle` exists and is true. -/
def populate_result (r : Result) (p : Proc) (runtimeVersion : String) : Result :=
  let r := { r with
    execution_time := p.execution_time.getD 0
    max_memory := 0
    wall_clock_time := 0
    context_switches := (0, 0)
    runtime_version := runtimeVersion }
  let r := if p.returncode ≠ 0 then
    { r with result_flag := r.result_flag ||| Result.RTE } else r
  if p.is_tle.getD false then
    { r with result_flag := r.result_flag ||| Result.TLE } else r

/-- Model of the process state produced by `BaseExecutor.launch`
(`src/dmoj/executors/base_executor.py` lines 130-166) as seen after the
grader has reaped the child: `launch` attaches `is_tle` exactly when a
wall deadline was supplied (true when its internal `communicate` timed
out, in which case the child is killed and its return code is the kill
signal's), and never attaches an `execution_time` attribute. `elapsed`
is the observed wall-clock seconds the child actually ran; the code
records it nowhere. -/
def launchProc (wallTime : Option ℚ) (elapsed : ℚ) (timedOut : Bool)
    (exitcode : Int) : Proc :=
  { returncode := if timedOut then -9 else exitcode
    is_tle := if wallTime.isSome then some timedOut else none
    execution_time := none }

/-! ### StandardGrader.grade -/

/-- Outcome of `_interact_with_process` in
`src/dmoj/graders/standard.py`: the `communicate` call either returns,
raises `subprocess.TimeoutExpired` (the only path that sets a flag there,
TLE), or raises `OutputLimitExceeded` (which kills the child but sets no
flag). -/
inductive InteractOutcome
  | ok
  | timeout
  | ole
deriving DecidableEq

/-- What happens when the case's checker is invoked by `check_result`:
it returns a value, or raises `UnicodeDecodeError`. -/
inductive CheckerInvocation
  | returns (out : CheckerOutput)
  | unicodeError
deriving DecidableEq

/-- Abstract inputs of one `StandardGrader.grade` call: the case's point
value, the checker's `run_on_error` attribute and behaviour, and the
observable behaviour of the launched child process. -/
structure GradeParams where
  casePoints : ℚ
  runOnError : Bool
  checkerInv : CheckerInvocation
  interact : InteractOutcome
  procOutput : List Nat
  returncode : Int
  is_tle : Option Bool
  runtimeVersion : String
deriving DecidableEq

/-- Model of `StandardGrader.check_result`
(`src/dmoj/graders/standard.py` lines 36-59): the checker runs unless the
result already has a failure flag and the checker did not opt in via
`run_on_error`; a `UnicodeDecodeError` from the checker becomes
`CheckerResult(False, 0, feedback='invalid unicode')`; a skipped checker
yields the bare boolean `False`. -/
def check_result (resultFlag : Nat) (runOnError : Bool)
    (inv : CheckerInvocation) : CheckerOutput :=
  if resultFlag = 0 ∨ runOnError then
    match inv with
    | CheckerInvocation.returns out => out
    | CheckerInvocation.unicodeError =>
      CheckerOutput.ofResult
        { passed := false, points := 0, feedback := some "invalid unicode" }
  else CheckerOutput.ofBool false

/-- Lifting of a bare boolean checker verdict in `StandardGrader.grade`:
`CheckerResult(check, case.points if check else 0.0)`. -/
def liftOutput : CheckerOutput → ℚ → CheckerResult
  | CheckerOutput.ofBool b, pts => { passed := b, points := if b then pts else 0 }
  | CheckerOutput.ofResult r, _ => r

/-- Model of `StandardGrader.grade` (`src/dmoj/graders/standard.py`
lines 15-31): builds a fresh `Result`, records the interaction outcome
(`TLE` flag only on `TimeoutExpired`), applies `populate_result` to the
reaped process, invokes the checker through `check_result`, lifts a bare
boolean, then ORs exactly one of AC/WA, assigns the checker's points and
overlays its feedback. -/
def gradeCase (gp : GradeParams) : Result :=
  let r0 : Result := {}
  let r1 :=
    match gp.interact with
    | InteractOutcome.ok => { r0 with proc_output := gp.procOutput }
    | InteractOutcome.timeout =>
      { r0 with result_flag := r0.result_flag ||| Result.TLE }
    | InteractOutcome.ole => r0
  let r2 := populate_result r1
    { returncode := gp.returncode, is_tle := gp.is_tle, execution_time := none }
    gp.runtimeVersion
  let co := check_result r2.result_flag gp.runOnError gp.checkerInv
  let c := liftOutput co gp.casePoints
  { r2 with
    result_flag := r2.result_flag ||| (if c.passed then Result.AC else Result.WA)
    points := c.points
    feedback := orElseStr c.feedback r2.feedback
    extended_feedback := orElseStr c.extended_feedback r2.extended_feedback }

/-- Flags accumulated on the result before the checker verdict is folded
in: TLE from `_interact_with_process`, then RTE/TLE from
`populate_result`. -/
def preFlags (gp : GradeParams) : Nat :=
  let f := match gp.interact with
    | InteractOutcome.timeout => Result.TLE
    | _ => 0
  let f := if gp.returncode ≠ 0 then f ||| Result.RTE else f
  if gp.is_tle.getD false then f ||| Result.TLE else f

/-- The lifted checker verdict a `grade` call folds into its result. -/
def lifted (gp : GradeParams) : CheckerResult :=
  liftOutput (check_result (preFlags gp) gp.runOnError gp.checkerInv) gp.casePoints

/-! ### Worker event stream (`src/dmoj/judge.py`) -/

/-- IPC events the worker sends to the supervisor, with the payload parts
the claims inspect (`IPC` enum in `src/dmoj/judge.py`). -/
inductive Ev
  | hello
  | bye
  | compileError
  | compileMessage
  | gradingBegin
  | gradingEnd
  | gradingAborted
  | batchBegin (n : Nat)
  | batchEnd (n : Nat)
  | result (batch : Option Nat) (caseNumber : Nat) (flag : Nat)
  | unhandled
deriving DecidableEq, BEq

/-- One entry of `problem.cases()`: a plain test case or a batch with a
number of inner cases (only the shape matters to the worker loop). -/
inductive PCase
  | plain
  | batched (inner : Nat)
deriving DecidableEq

/-- Model of the flattening loop at the top of
`JudgeWorker._grade_cases` (`src/dmoj/judge.py` lines 190-198): batch
numbers start at 1 and each batched case is tagged with its batch
number; plain cases carry `none`. -/
def flattenCases : List PCase → Nat → List (Option Nat)
  | [], _ => []
  | PCase.plain :: rest, bn => none :: flattenCases rest bn
  | PCase.batched k :: rest, bn =>
    List.replicate k (some (bn + 1)) ++ flattenCases rest (bn + 1)

/-- Whether the asynchronously set `_abort_requested` flag is observed at
the check following the grading of case `cn`: `abortAt = some j` means
the flag was set while case `j` was being graded (and stays set), `none`
means no abort request arrives. -/
def abortObs (abortAt : Option Nat) (cn : Nat) : Bool :=
  match abortAt with
  | some j => decide (j ≤ cn)
  | none => false

/-- Model of the main loop of `JudgeWorker._grade_cases`
(`src/dmoj/judge.py` lines 200-222), event component. Arguments mirror
the loop state: the per-case grader verdict flags `g` (indexed by
1-based case number), the abort observation, `submission.short_circuit`,
the remaining flattened cases, the running case counter and the
`is_short_circuiting` flag. Batched entries are wrapped in
`BATCH_BEGIN`/`BATCH_END` around each single case, exactly as the code
emits them; an observed abort emits `GRADING_ABORTED` and returns. -/
def gradeLoopEvs (g : Nat → Nat) (ab : Nat → Bool) (sc : Bool) :
    List (Option Nat) → Nat → Bool → List Ev
  | [], _, _ => [Ev.gradingEnd]
  | b :: rest, caseNo, scm =>
    let pre : List Ev := match b with
      | some n => [Ev.batchBegin n]
      | none => []
    let post : List Ev := match b with
      | some n => [Ev.batchEnd n]
      | none => []
    let cn := caseNo + 1
    if scm then
      pre ++ Ev.result b cn Result.SC :: post ++ gradeLoopEvs g ab sc rest cn scm
    else if ab cn then
      pre ++ [Ev.gradingAborted]
    else
      let scm2 := scm || (decide (g cn &&& Result.WA ≠ 0) && sc)
      pre ++ Ev.result b cn (g cn) :: post ++ gradeLoopEvs g ab sc rest cn scm2

/-- Companion of `gradeLoopEvs` recording the 1-based case numbers for
which `self.grader.grade(case)` was actually invoked (equivalently, for
which a child process is launched: `grade` always calls
`_launch_process`); the synthetic-SC branch constructs its `Result`
without grading. -/
def gradeLoopRun (g : Nat → Nat) (ab : Nat → Bool) (sc : Bool) :
    List (Option Nat) → Nat → Bool → List Nat
  | [], _, _ => []
  | _ :: rest, caseNo, scm =>
    let cn := caseNo + 1
    if scm then gradeLoopRun g ab sc rest cn scm
    else if ab cn then [cn]
    else
      let scm2 := scm || (decide (g cn &&& Result.WA ≠ 0) && sc)
      cn :: gradeLoopRun g ab sc rest cn scm2

/-- Compilation outcome of building the grader in `_grade_cases`:
`CompileError`, or success with or without a non-empty compiler
warning. -/
inductive CompileOutcome
  | err
  | ok (warning : Bool)
deriving DecidableEq

/-- Abstract parameters of one worker run that completes without an
unhandled exception: the compile outcome, the problem's case list,
`submission.short_circuit`, the grader's verdict flags per graded case,
and when (if ever) an abort request is observed. -/
structure WorkerRun where
  compile : CompileOutcome
  cases : List PCase
  shortCircuit : Bool
  gradeFlag : Nat → Nat
  abortAt : Option Nat

/-- Model of the event sequence sent by
`JudgeWorker._worker_process_main` (`src/dmoj/judge.py` lines 146-169)
for a run whose `_grade_cases` raises no exception: `HELLO`, then the
generator's events (`COMPILE_ERROR` stops grading; otherwise an optional
`COMPILE_MESSAGE`, `GRADING_BEGIN`, the case loop), then `BYE`. -/
def workerEvents (run : WorkerRun) : List Ev :=
  match run.compile with
  | CompileOutcome.err => [Ev.hello, Ev.compileError, Ev.bye]
  | CompileOutcome.ok warn =>
    Ev.hello ::
      ((if warn then [Ev.compileMessage] else []) ++
        Ev.gradingBegin ::
          (gradeLoopEvs run.gradeFlag (abortObs run.abortAt) run.shortCircuit
              (flattenCases run.cases 0) 0 false ++ [Ev.bye]))

/-- Case numbers actually graded (children launched) during a worker
run. -/
def workerGraded (run : WorkerRun) : List Nat :=
  match run.compile with
  | CompileOutcome.err => []
  | CompileOutcome.ok _ =>
    gradeLoopRun run.gradeFlag (abortObs run.abortAt) run.shortCircuit
      (flattenCases run.cases 0) 0 false

/-! ### The spec's event regex and its amended form -/

/-- Acceptance of the tail of the spec regex
`(BATCH_BEGIN RESULT+ BATCH_END | RESULT)* (GRADING_END | GRADING_ABORTED) BYE`.
The mode is `true` inside a batch after at least one `RESULT`. -/
def matchTail : Bool → List Ev → Bool
  | true, Ev.result _ _ _ :: rest => matchTail true rest
  | true, Ev.batchEnd _ :: rest => matchTail false rest
  | true, _ => false
  | false, [Ev.gradingEnd, Ev.bye] => true
  | false, [Ev.gradingAborted, Ev.bye] => true
  | false, Ev.batchBegin _ :: Ev.result _ _ _ :: rest => matchTail true rest
  | false, Ev.result _ _ _ :: rest => matchTail false rest
  | false, _ => false

/-- Acceptance of the spec's full event regex `HELLO (COMPILE_ERROR |
COMPILE_MESSAGE? GRADING_BEGIN (BATCH_BEGIN RESULT+ BATCH_END | RESULT)*
(GRADING_END | GRADING_ABORTED) | UNHANDLED_EXCEPTION) BYE`. -/
def matchSpecRegex : List Ev → Bool
  | [Ev.hello, Ev.compileError, Ev.bye] => true
  | [Ev.hello, Ev.unhandled, Ev.bye] => true
  | Ev.hello :: Ev.compileMessage :: Ev.gradingBegin :: rest => matchTail false rest
  | Ev.hello :: Ev.gradingBegin :: rest => matchTail false rest
  | _ => false

/-- Acceptance of the amended tail: every batch wrap holds exactly one
`RESULT`, and an abort observed while a batched case was being graded
leaves a dangling `BATCH_BEGIN` directly before `GRADING_ABORTED`. -/
def matchTailAmended : List Ev → Bool
  | [Ev.gradingEnd, Ev.bye] => true
  | [Ev.gradingAborted, Ev.bye] => true
  | [Ev.batchBegin _, Ev.gradingAborted, Ev.bye] => true
  | Ev.batchBegin n :: Ev.result _ _ _ :: Ev.batchEnd m :: rest =>
    n == m && matchTailAmended rest
  | Ev.result _ _ _ :: rest => matchTailAmended rest
  | _ => false

/-- Acceptance of the amended regex for exception-free runs: `HELLO
(COMPILE_ERROR | COMPILE_MESSAGE? GRADING_BEGIN (BATCH_BEGIN RESULT
BATCH_END | RESULT)* (GRADING_END | GRADING_ABORTED | BATCH_BEGIN
GRADING_ABORTED)) BYE`. -/
def matchAmendedRegex : List Ev → Bool
  | [Ev.hello, Ev.compileError, Ev.bye] => true
  | Ev.hello :: Ev.compileMessage :: Ev.gradingBegin :: rest => matchTailAmended rest
  | Ev.hello :: Ev.gradingBegin :: rest => matchTailAmended rest
  | _ => false

/-- Structural well-formedness of batch events as the code actually emits
them: every `BATCH_BEGIN(n)` is immediately followed by a `RESULT`
tagged with batch `n` and a `BATCH_END(n)`, except that a `BATCH_BEGIN`
may be directly followed by `GRADING_ABORTED`; `BATCH_END` never occurs
otherwise, and plain `RESULT`s carry no batch tag. -/
def wellBatched : List Ev → Bool
  | [] => true
  | Ev.batchBegin n :: Ev.result b _ _ :: Ev.batchEnd m :: rest =>
    n == m && b == some n && wellBatched rest
  | Ev.batchBegin _ :: Ev.gradingAborted :: rest => wellBatched rest
  | Ev.batchBegin _ :: _ => false
  | Ev.batchEnd _ :: _ => false
  | Ev.result b _ _ :: rest => b == none && wellBatched rest
  | _ :: rest => wellBatched rest

/-- The 1-based case numbers of the `RESULT` events of a stream, in
emission order. -/
def resultCaseNums (l : List Ev) : List Nat :=
  l.filterMap fun e =>
    match e with
    | Ev.result _ cn _ => some cn
    | _ => none

/-! ### Compiled-binary cache (`src/dmoj/executors/compiled_executor.py`) -/

/-- One value of `_CompiledExecutorMeta.compiled_binary_cache`: the
executable path and working directory adopted from a previously built
`CompiledExecutor`. -/
structure CacheEntry where
  executable : String
  dir : String
deriving DecidableEq

/-- Model of the `pylru.lrucache` used as `compiled_binary_cache`:
an association list in most-recently-used-first order plus the capacity
(`env.compiled_binary_cache_size`, default 100). -/
structure LRU where
  entries : List (String × CacheEntry)
  capacity : Nat
deriving DecidableEq

/-- Key lookup without promotion (`cache_key in cls.compiled_binary_cache`). -/
def LRU.lookup (c : LRU) (k : String) : Option CacheEntry :=
  (c.entries.find? fun e => e.1 == k).map Prod.snd

/-- Access promotion (`cls.compiled_binary_cache[cache_key]` moves the
entry to the most-recent position). -/
def LRU.touch (c : LRU) (k : String) : LRU :=
  match c.entries.find? fun e => e.1 == k with
  | none => c
  | some e => { c with entries := e :: c.entries.eraseP fun x => x.1 == k }

/-- Insertion (`cls.compiled_binary_cache[cache_key] = obj`): the new
entry becomes most recent and the least recently used entries beyond the
capacity are evicted (pylru then flips the evictee's `is_cached`). -/
def LRU.insert (c : LRU) (k : String) (v : CacheEntry) : LRU :=
  { c with entries := ((k, v) :: c.entries.eraseP fun x => x.1 == k).take c.capacity }

/-- State threaded through executor constructions: the class-level cache
and a fresh-name supply standing for `tempfile.mkdtemp`. -/
structure ExecSt where
  cache : LRU
  fresh : Nat
deriving DecidableEq

/-- Result of one `CompiledExecutor` construction: the executable path
and working directory the instance ends up with, whether `compile()`
ran, and the instance's `is_cached` mark. -/
structure BuildOut where
  executable : String
  dir : String
  compiled : Bool
  isCached : Bool
deriving DecidableEq

/-- Fresh working directory produced by `self._file` via
`tempfile.mkdtemp`. -/
def freshDir (n : Nat) : String := "tmp" ++ toString n

/-- The cache-miss path of `_CompiledExecutorMeta.__call__`:
`create_files` + `compile()` in a fresh working directory, inserting the
new instance under its key when `is_cached`. -/
def buildNew (isCached : Bool) (key : String) (st : ExecSt) : BuildOut × ExecSt :=
  let d := freshDir st.fresh
  let e := d ++ "/bin"
  ({ executable := e, dir := d, compiled := true, isCached := isCached },
   { cache := if isCached then st.cache.insert key ⟨e, d⟩ else st.cache
     fresh := st.fresh + 1 })

/-- Model of `_CompiledExecutorMeta.__call__`
(`src/dmoj/executors/compiled_executor.py` lines 23-45): when the
construction is `cached` and the key is present and the cached
executable still exists on disk (`disk` is the file-existence oracle),
the instance adopts the cached executable path and working directory and
no compile runs; in every other situation the source is materialized in
a fresh directory, `compile()` runs, and a `cached` construction inserts
the instance into the cache. -/
def metaCall (isCached : Bool) (key : String) (disk : String → Bool)
    (st : ExecSt) : BuildOut × ExecSt :=
  if isCached then
    match st.cache.lookup key with
    | some e =>
      if disk e.executable then
        ({ executable := e.executable, dir := e.dir, compiled := false,
           isCached := true },
         { st with cache := st.cache.touch key })
      else buildNew true key st
    | none => buildNew true key st
  else buildNew false key st

/-- Model of `StandardGrader._generate_binary`
(`src/dmoj/graders/standard.py` lines 90-96): it constructs
`executors[language].Executor(problem_id, source, hints=..., unbuffered=...)`
WITHOUT a `cached=True` keyword, so `kwargs.pop('cached', False)` makes
the construction non-cached. -/
def generateBinary (key : String) (disk : String → Bool) (st : ExecSt) :
    BuildOut × ExecSt :=
  metaCall false key disk st

/-! ### Theorems -/

/-- C6 counterexample: the claim states `check` returns true iff the
outputs are equal after stripping trailing whitespace and normalizing
line endings; for process output `" 1"` against judge output `"1"` the
code returns true (Python `bytes.strip()` also removes leading
whitespace) while the spec's normalization leaves the two unequal, so
the claimed equivalence is false at this input. -/
theorem c6_standard_cex :
    standardCheck [32, 49] [49] = true ∧ specStdEqual [32, 49] [49] = false := by
  decide

/-- C6 amended: the standard checker's `check(process_output,
judge_output)` returns true iff the two byte strings are equal after
stripping leading AND trailing ASCII whitespace from the whole string;
no per-line trailing-whitespace stripping, no line-ending normalization
and no UTF-8 decoding take place. -/
theorem c6_standard_check_strip (process judge : List Nat) :
    standardCheck process judge = true ↔ stripB process = stripB judge := by
  unfold standardCheck standardFallback
  rw [beq_iff_eq]
  exact eq_comm

/-- C7 counterexample: the claim states that whenever the outputs differ
as raw bytes but are equal after trim-and-collapse-whitespace
normalization, `identical.check` with `pe_allowed` reports a
Presentation Error; for process output `"1  2"` against judge output
`"1 2"` the hypothesis holds, yet the code returns
`CheckerResult(False, 0)` with no feedback, because its fallback
`standard` comparison only strips whitespace at the two ends and never
collapses interior runs. -/
theorem c7_identical_cex :
    identicalCheck [49, 32, 32, 50] [49, 32, 50] true =
      CheckerOutput.ofResult { passed := false, points := 0 } ∧
    trimCollapse [49, 32, 32, 50] = trimCollapse [49, 32, 50] ∧
    [49, 32, 32, 50] ≠ [49, 32, 50] := by
  decide

/-- C7 amended: for every pair of byte strings that differ as raw bytes
but are equal after stripping leading and trailing whitespace from the
whole string, `identical.check` with `pe_allowed=true` returns
`CheckerResult(passed=false, points=0)` with feedback
"Presentation Error, check your whitespace". -/
theorem c7_identical_pe (process judge : List Nat)
    (hne : process ≠ judge) (hstrip : stripB process = stripB judge) :
    identicalCheck process judge true =
      CheckerOutput.ofResult
        { passed := false, points := 0
          feedback := some "Presentation Error, check your whitespace" } := by
  unfold identicalCheck standardFallback
  have h1 : (judge == process) = false := by
    simp only [beq_eq_false_iff_ne, ne_eq]
    exact fun h => hne h.symm
  have h2 : (stripB judge == stripB process) = true := by
    simp [hstrip]
  simp [h1, h2]

/-- C7 amended witness: the presentation-error path at process output
`" a\n"` against judge output `"a"`. -/
theorem c7_identical_pe_witness :
    identicalCheck [32, 97, 10] [97] true =
      CheckerOutput.ofResult
        { passed := false, points := 0
          feedback := some "Presentation Error, check your whitespace" } :=
  c7_identical_pe [32, 97, 10] [97] (by decide) (by decide)

/-- C5: evaluation of the symlink admission test at the failing input.
With working directory `/tmp/abc` and symlink source `../abcevil/f`, the
normalized path is `/tmp/abcevil/f`, which escapes the working
directory, yet `launch`'s check accepts it because
`os.path.commonprefix` compares character-wise: the common run of
`/tmp/abcevil/f` and `/tmp/abc` is exactly `/tmp/abc`. The symlink is
therefore created outside the working directory, contradicting the
claim (and the code's own `InternalError` message). -/
theorem c5_symlink_escape :
    symlinkAllowed ['/', 't', 'm', 'p', '/', 'a', 'b', 'c']
        ['.', '.', '/', 'a', 'b', 'c', 'e', 'v', 'i', 'l', '/', 'f'] = true ∧
    insideDir ['/', 't', 'm', 'p', '/', 'a', 'b', 'c']
        (normAbsC (pyJoin ['/', 't', 'm', 'p', '/', 'a', 'b', 'c']
          ['.', '.', '/', 'a', 'b', 'c', 'e', 'v', 'i', 'l', '/', 'f'])) = false := by
  decide

/-- C9: evaluation of `populate_result` at the failing input. A child
launched with a 10 second wall deadline that exits normally after
running for 1 observed second gets `execution_time = 0` in its result,
not the observed elapsed seconds: `launch` never attaches an
`execution_time` attribute to the `subprocess.Popen` object, so the
`hasattr` guard in `populate_result` always takes the `0.0` branch. -/
theorem c9_execution_time_zero :
    (populate_result {} (launchProc (some 10) 1 false 0) "").execution_time = 0 ∧
    (1 : ℚ) ≠ 0 := by
  constructor
  · rfl
  · decide

/-- Structural form of the verdict bits produced by `StandardGrader.grade`:
the flags accumulated during execution, with exactly one of AC or WA
ORed in by the checker fold. -/
theorem gradeCase_flag (gp : GradeParams) :
    (gradeCase gp).result_flag =
      preFlags gp ||| (if (lifted gp).passed then Result.AC else Result.WA) := by
  unfold gradeCase lifted populate_result preFlags
  cases gp.interact <;>
    by_cases hrc : gp.returncode ≠ 0 <;>
      cases htle : gp.is_tle.getD false <;>
        simp [hrc, htle]

/-- Points of a graded result are exactly the lifted checker verdict's
points. -/
theorem gradeCase_points (gp : GradeParams) :
    (gradeCase gp).points = (lifted gp).points := by
  unfold gradeCase lifted populate_result preFlags
  cases gp.interact <;>
    by_cases hrc : gp.returncode ≠ 0 <;>
      cases htle : gp.is_tle.getD false <;>
        simp [hrc, htle]

/-- `max_memory` of a graded result is always zero. -/
theorem gradeCase_memory (gp : GradeParams) :
    (gradeCase gp).max_memory = 0 := by
  unfold gradeCase populate_result
  cases gp.interact <;>
    by_cases hrc : gp.returncode ≠ 0 <;>
      cases htle : gp.is_tle.getD false <;>
        simp [hrc, htle]

/-- The pre-checker flags can only be 0, RTE, TLE or RTE|TLE. -/
theorem preFlags_cases (gp : GradeParams) :
    preFlags gp = 0 ∨ preFlags gp = 4 ∨ preFlags gp = 8 ∨ preFlags gp = 12 := by
  unfold preFlags
  cases gp.interact <;>
    by_cases hrc : gp.returncode ≠ 0 <;>
      cases htle : gp.is_tle.getD false <;>
        simp [hrc, htle, Result.TLE, Result.RTE]

/-- A `StandardGrader.grade` call on a case worth 1 point whose child
timed out (TLE recorded by `_interact_with_process`, nonzero return code
after the kill, `is_tle` true) and whose checker opted into
`run_on_error` and returned `CheckerResult(False, 5)`. -/
def c2claimGp : GradeParams :=
  { casePoints := 1
    runOnError := true
    checkerInv := CheckerInvocation.returns (CheckerOutput.ofResult ⟨false, 5, none, none⟩)
    interact := InteractOutcome.timeout
    procOutput := []
    returncode := -9
    is_tle := some true
    runtimeVersion := "" }

/-- C2 counterexample: at `c2claimGp` the emitted result has the flag
bitset TLE|RTE|WA (three of the listed flags set, not exactly one), and
its points are 5, exceeding `case.points = 1` and nonzero although AC is
unset: every conjunct of the claimed invariant fails. -/
theorem c2_grade_invariant_cex :
    ¬ (([Result.AC, Result.WA, Result.TLE, Result.MLE, Result.RTE,
          Result.OLE, Result.IR, Result.SC].countP
            (fun b => (gradeCase c2claimGp).result_flag &&& b != 0)) = 1 ∧
        0 ≤ (gradeCase c2claimGp).points ∧
        (gradeCase c2claimGp).points ≤ c2claimGp.casePoints ∧
        ((gradeCase c2claimGp).result_flag &&& Result.AC = 0 →
          (gradeCase c2claimGp).points = 0)) := by
  decide

/-- C2 amended: the result of `StandardGrader.grade` has exactly one of
AC or WA set (AC iff the lifted checker verdict passed), possibly
together with the TLE/RTE flags recorded during execution; SC, MLE, OLE
and IR are never set by `grade`; the points are exactly the checker's
reported points, which for a bare-boolean checker outcome are 0 or
`case.points` (so the claimed bounds hold for boolean checkers, while a
`CheckerResult`'s points are copied unclamped). -/
theorem c2_grade_verdict (gp : GradeParams) :
    ((gradeCase gp).result_flag &&& Result.AC ≠ 0 ↔ (lifted gp).passed = true) ∧
    ((gradeCase gp).result_flag &&& Result.WA ≠ 0 ↔ (lifted gp).passed = false) ∧
    (gradeCase gp).result_flag &&&
      (Result.SC ||| Result.MLE ||| Result.OLE ||| Result.IR) = 0 ∧
    (gradeCase gp).points = (lifted gp).points ∧
    (∀ b, gp.checkerInv = CheckerInvocation.returns (CheckerOutput.ofBool b) →
      (gradeCase gp).points = 0 ∨ (gradeCase gp).points = gp.casePoints) := by
  refine ⟨?_, ?_, ?_, gradeCase_points gp, ?_⟩
  · rw [gradeCase_flag]
    rcases preFlags_cases gp with h | h | h | h <;>
      rw [h] <;> cases hp : (lifted gp).passed <;> simp [hp] <;> decide
  · rw [gradeCase_flag]
    rcases preFlags_cases gp with h | h | h | h <;>
      rw [h] <;> cases hp : (lifted gp).passed <;> simp [hp] <;> decide
  · rw [gradeCase_flag]
    rcases preFlags_cases gp with h | h | h | h <;>
      rw [h] <;> cases hp : (lifted gp).passed <;> simp [hp] <;> decide
  · intro b hb
    rw [gradeCase_points]
    unfold lifted check_result
    rw [hb]
    by_cases hc : preFlags gp = 0 ∨ gp.runOnError <;> simp [hc, liftOutput] <;>
      cases b <;> simp

/-- A clean run whose checker returned the bare boolean `true`. -/
def c2witGp : GradeParams :=
  { casePoints := 50
    runOnError := false
    checkerInv := CheckerInvocation.returns (CheckerOutput.ofBool true)
    interact := InteractOutcome.ok
    procOutput := [53]
    returncode := 0
    is_tle := some false
    runtimeVersion := "" }

/-- C2 amended witness: the boolean-checker points clause of
`c2_grade_verdict` instantiated at the concrete run `c2witGp`. -/
theorem c2_grade_verdict_witness :
    (gradeCase c2witGp).points = 0 ∨ (gradeCase c2witGp).points = c2witGp.casePoints :=
  (c2_grade_verdict c2witGp).2.2.2.2 true rfl

/-- The synthetic short-circuit result `Result(case, result_flag=Result.SC)`
constructed in `JudgeWorker._grade_cases` (`src/dmoj/judge.py` line 208). -/
def scResult : Result := { result_flag := Result.SC }

/-- C10: every result the grading pipeline produces — a `grade` call's
result under any interaction, return code, timeout and checker outcome,
and the synthetic short-circuit result — has `max_memory = 0` and never
carries the MLE flag, so a memory-limit verdict is unreachable even when
a `memory_limit` accompanies the submission: `populate_result` hard-codes
`max_memory = 0` and no code path ORs MLE into `result_flag`. -/
theorem c10_no_memory (gp : GradeParams) :
    (gradeCase gp).max_memory = 0 ∧
    (gradeCase gp).result_flag &&& Result.MLE = 0 ∧
    scResult.max_memory = 0 ∧
    scResult.result_flag &&& Result.MLE = 0 := by
  refine ⟨gradeCase_memory gp, ?_, rfl, rfl⟩
  rw [gradeCase_flag]
  rcases preFlags_cases gp with h | h | h | h <;>
    rw [h] <;> cases hp : (lifted gp).passed <;> simp [hp] <;> decide

/-- Inserting under a key and looking the key up yields the inserted
entry, provided the cache holds at least one entry. -/
theorem LRU.lookup_insert (c : LRU) (k : String) (v : CacheEntry)
    (hcap : 1 ≤ c.capacity) : (c.insert k v).lookup k = some v := by
  obtain ⟨m, hm⟩ : ∃ m, c.capacity = m + 1 := by
    cases hc : c.capacity with
    | zero => omega
    | succ m => exact ⟨m, rfl⟩
  simp [LRU.insert, LRU.lookup, hm, List.take_succ_cons, List.find?]

/-- Promotion does not change what a key maps to. -/
theorem LRU.lookup_touch (c : LRU) (k : String) :
    (c.touch k).lookup k = c.lookup k := by
  unfold LRU.touch
  cases hf : c.entries.find? (fun e => e.1 == k) with
  | none => rfl
  | some e =>
    have hp := List.find?_some hf
    unfold LRU.lookup
    simp [List.find?_cons, hp, hf]

/-- C3 amended: for two `cached=True` constructions of the same cache key
(same executor identity, source and problem id) in sequence, if the
executable produced or adopted by the first still exists on disk, the
second adopts the first's executable path and working directory and runs
no compiler. (The claim's "in particular" clause about `StandardGrader`
fails; see the counterexample.) -/
theorem c3_cached_reuse (st : ExecSt) (key : String) (disk : String → Bool)
    (hcap : 1 ≤ st.cache.capacity)
    (hdisk : disk (metaCall true key disk st).1.executable = true) :
    (metaCall true key disk (metaCall true key disk st).2).1.executable =
      (metaCall true key disk st).1.executable ∧
    (metaCall true key disk (metaCall true key disk st).2).1.dir =
      (metaCall true key disk st).1.dir ∧
    (metaCall true key disk (metaCall true key disk st).2).1.compiled = false := by
  cases h : st.cache.lookup key with
  | none =>
    have e1 : metaCall true key disk st =
        ({ executable := freshDir st.fresh ++ "/bin", dir := freshDir st.fresh,
           compiled := true, isCached := true },
         { cache := st.cache.insert key
             ⟨freshDir st.fresh ++ "/bin", freshDir st.fresh⟩,
           fresh := st.fresh + 1 }) := by
      simp [metaCall, h, buildNew]
    rw [e1] at hdisk ⊢
    have h2 : (st.cache.insert key
        ⟨freshDir st.fresh ++ "/bin", freshDir st.fresh⟩).lookup key =
        some ⟨freshDir st.fresh ++ "/bin", freshDir st.fresh⟩ :=
      LRU.lookup_insert _ _ _ hcap
    simp [metaCall, h2, hdisk]
  | some en =>
    cases hd : disk en.executable with
    | true =>
      have e1 : metaCall true key disk st =
          ({ executable := en.executable, dir := en.dir, compiled := false,
             isCached := true },
           { st with cache := st.cache.touch key }) := by
        simp [metaCall, h, hd]
      rw [e1] at hdisk ⊢
      have h2 : (st.cache.touch key).lookup key = some en := by
        rw [LRU.lookup_touch]; exact h
      simp [metaCall, h2, hdisk]
    | false =>
      have e1 : metaCall true key disk st =
          ({ executable := freshDir st.fresh ++ "/bin", dir := freshDir st.fresh,
             compiled := true, isCached := true },
           { cache := st.cache.insert key
               ⟨freshDir st.fresh ++ "/bin", freshDir st.fresh⟩,
             fresh := st.fresh + 1 }) := by
        simp [metaCall, h, hd, buildNew]
      rw [e1] at hdisk ⊢
      have h2 : (st.cache.insert key
          ⟨freshDir st.fresh ++ "/bin", freshDir st.fresh⟩).lookup key =
          some ⟨freshDir st.fresh ++ "/bin", freshDir st.fresh⟩ :=
        LRU.lookup_insert _ _ _ hcap
      simp [metaCall, h2, hdisk]

/-- An empty cache with the default capacity
(`compiled_binary_cache_size = 100`) and a fresh name supply. -/
def c3st0 : ExecSt := { cache := { entries := [], capacity := 100 }, fresh := 0 }

/-- File-existence oracle under which every executable stays on disk. -/
def diskAll : String → Bool := fun _ => true

/-- C3 counterexample: two submissions with identical source to the same
problem graded through `StandardGrader` do NOT share one compilation:
`StandardGrader._generate_binary` constructs the executor without
`cached=True`, so even with the key's artifact available and on disk the
second construction compiles again into a fresh directory. -/
theorem c3_standard_grader_cex :
    (generateBinary "k" diskAll ((generateBinary "k" diskAll c3st0).2)).1.compiled
        = true ∧
    ¬ ((generateBinary "k" diskAll ((generateBinary "k" diskAll c3st0).2)).1.executable
        = (generateBinary "k" diskAll c3st0).1.executable) := by
  decide

/-- C3 amended witness: `c3_cached_reuse` at the empty default cache, key
"k" and the all-true disk oracle. -/
theorem c3_cached_reuse_witness :
    (metaCall true "k" diskAll (metaCall true "k" diskAll c3st0).2).1.executable =
      (metaCall true "k" diskAll c3st0).1.executable ∧
    (metaCall true "k" diskAll (metaCall true "k" diskAll c3st0).2).1.dir =
      (metaCall true "k" diskAll c3st0).1.dir ∧
    (metaCall true "k" diskAll (metaCall true "k" diskAll c3st0).2).1.compiled = false :=
  c3_cached_reuse c3st0 "k" diskAll (by decide) rfl

/-- Core induction for the amended event regex: any suffix the case loop
emits, followed by `BYE`, is accepted by the amended tail matcher,
whatever the case numbering and short-circuit state. -/
theorem matchTailAmended_loop (g : Nat → Nat) (ab : Nat → Bool) (sc : Bool)
    (flat : List (Option Nat)) : ∀ (caseNo : Nat) (scm : Bool),
    matchTailAmended (gradeLoopEvs g ab sc flat caseNo scm ++ [Ev.bye]) = true := by
  induction flat with
  | nil => intro caseNo scm; rfl
  | cons b rest ih =>
    intro caseNo scm
    cases b with
    | none =>
      cases scm with
      | true => simpa [gradeLoopEvs, matchTailAmended] using ih (caseNo + 1) true
      | false =>
        cases hab : ab (caseNo + 1) with
        | true => simp [gradeLoopEvs, hab, matchTailAmended]
        | false => simpa [gradeLoopEvs, hab, matchTailAmended] using ih (caseNo + 1) _
    | some n =>
      cases scm with
      | true => simpa [gradeLoopEvs, matchTailAmended] using ih (caseNo + 1) true
      | false =>
        cases hab : ab (caseNo + 1) with
        | true => simp [gradeLoopEvs, hab, matchTailAmended]
        | false => simpa [gradeLoopEvs, hab, matchTailAmended] using ih (caseNo + 1) _

/-- A one-case batch whose grading observes an abort request. -/
def c1run : WorkerRun :=
  { compile := CompileOutcome.ok false
    cases := [PCase.batched 1]
    shortCircuit := false
    gradeFlag := fun _ => Result.WA ||| Result.TLE
    abortAt := some 1 }

/-- C1 counterexample: when the abort request arrives while a batched
case is being graded, the worker emits
`HELLO GRADING_BEGIN BATCH_BEGIN GRADING_ABORTED BYE`: the
`BATCH_BEGIN` is followed by neither a `RESULT` nor a `BATCH_END`, so
the emitted sequence does not match the spec's regex — precisely the
scenario the claim singles out. -/
theorem c1_regex_cex : matchSpecRegex (workerEvents c1run) = false := by decide

/-- C1 amended: for every exception-free worker run the emitted sequence
matches `HELLO (COMPILE_ERROR | COMPILE_MESSAGE? GRADING_BEGIN
(BATCH_BEGIN RESULT BATCH_END | RESULT)* (GRADING_END | GRADING_ABORTED
| BATCH_BEGIN GRADING_ABORTED)) BYE`: each batched case is individually
wrapped, and an abort observed during a batched case leaves exactly one
dangling `BATCH_BEGIN` directly before `GRADING_ABORTED`. -/
theorem c1_amended_regex (run : WorkerRun) :
    matchAmendedRegex (workerEvents run) = true := by
  unfold workerEvents
  cases run.compile with
  | err => rfl
  | ok warn =>
    cases warn with
    | true =>
      simpa [matchAmendedRegex] using
        matchTailAmended_loop run.gradeFlag (abortObs run.abortAt)
          run.shortCircuit (flattenCases run.cases 0) 0 false
    | false =>
      simpa [matchAmendedRegex] using
        matchTailAmended_loop run.gradeFlag (abortObs run.abortAt)
          run.shortCircuit (flattenCases run.cases 0) 0 false

/-- Core induction for batch well-formedness of the case loop's events. -/
theorem wellBatched_loop (g : Nat → Nat) (ab : Nat → Bool) (sc : Bool)
    (flat : List (Option Nat)) : ∀ (caseNo : Nat) (scm : Bool),
    wellBatched (gradeLoopEvs g ab sc flat caseNo scm ++ [Ev.bye]) = true := by
  induction flat with
  | nil => intro caseNo scm; rfl
  | cons b rest ih =>
    intro caseNo scm
    cases b with
    | none =>
      cases scm with
      | true => simpa [gradeLoopEvs, wellBatched] using ih (caseNo + 1) true
      | false =>
        cases hab : ab (caseNo + 1) with
        | true => simp [gradeLoopEvs, hab, wellBatched]
        | false => simpa [gradeLoopEvs, hab, wellBatched] using ih (caseNo + 1) _
    | some n =>
      cases scm with
      | true => simpa [gradeLoopEvs, wellBatched] using ih (caseNo + 1) true
      | false =>
        cases hab : ab (caseNo + 1) with
        | true => simp [gradeLoopEvs, hab, wellBatched]
        | false => simpa [gradeLoopEvs, hab, wellBatched] using ih (caseNo + 1) _

/-- The result case numbers of one loop iteration's events: the wrap
events contribute nothing and the single `RESULT` contributes its case
number. -/
theorem resultCaseNums_step (b : Option Nat) (cn f : Nat) (l : List Ev) :
    resultCaseNums
      ((match b with | some n => [Ev.batchBegin n] | none => ([] : List Ev)) ++
        Ev.result b cn f ::
          ((match b with | some n => [Ev.batchEnd n] | none => ([] : List Ev)) ++ l)) =
    cn :: resultCaseNums l := by
  cases b <;> simp [resultCaseNums]

/-- An aborting iteration contributes no result case number. -/
theorem resultCaseNums_abort (b : Option Nat) :
    resultCaseNums
      ((match b with | some n => [Ev.batchBegin n] | none => ([] : List Ev)) ++
        [Ev.gradingAborted]) = [] := by
  cases b <;> simp [resultCaseNums]

/-- Result case numbers emitted by the case loop are strictly increasing
and all exceed the running case counter. -/
theorem resultCaseNums_loop (g : Nat → Nat) (ab : Nat → Bool) (sc : Bool)
    (flat : List (Option Nat)) : ∀ (caseNo : Nat) (scm : Bool),
    List.Pairwise (· < ·)
      (resultCaseNums (gradeLoopEvs g ab sc flat caseNo scm)) ∧
    ∀ x ∈ resultCaseNums (gradeLoopEvs g ab sc flat caseNo scm), caseNo < x := by
  induction flat with
  | nil =>
    intro caseNo scm
    exact ⟨by simp [gradeLoopEvs, resultCaseNums], by simp [gradeLoopEvs, resultCaseNums]⟩
  | cons b rest ih =>
    intro caseNo scm
    cases scm with
    | true =>
      obtain ⟨hpw, hlb⟩ := ih (caseNo + 1) true
      have hevs : gradeLoopEvs g ab sc (b :: rest) caseNo true =
          (match b with | some n => [Ev.batchBegin n] | none => ([] : List Ev)) ++
            Ev.result b (caseNo + 1) Result.SC ::
              ((match b with | some n => [Ev.batchEnd n] | none => ([] : List Ev)) ++
                gradeLoopEvs g ab sc rest (caseNo + 1) true) := by
        simp [gradeLoopEvs]
      rw [hevs, resultCaseNums_step]
      refine ⟨List.pairwise_cons.mpr ⟨hlb, hpw⟩, ?_⟩
      intro x hx
      rcases List.mem_cons.mp hx with h | h
      · omega
      · have := hlb x h; omega
    | false =>
      cases hab : ab (caseNo + 1) with
      | true =>
        have hevs : gradeLoopEvs g ab sc (b :: rest) caseNo false =
            (match b with | some n => [Ev.batchBegin n] | none => ([] : List Ev)) ++
              [Ev.gradingAborted] := by
          simp [gradeLoopEvs, hab]
        rw [hevs, resultCaseNums_abort]
        exact ⟨List.Pairwise.nil, by simp⟩
      | false =>
        obtain ⟨hpw, hlb⟩ :=
          ih (caseNo + 1) (decide (g (caseNo + 1) &&& Result.WA ≠ 0) && sc)
        have hevs : gradeLoopEvs g ab sc (b :: rest) caseNo false =
            (match b with | some n => [Ev.batchBegin n] | none => ([] : List Ev)) ++
              Ev.result b (caseNo + 1) (g (caseNo + 1)) ::
                ((match b with | some n => [Ev.batchEnd n] | none => ([] : List Ev)) ++
                  gradeLoopEvs g ab sc rest (caseNo + 1)
                    (decide (g (caseNo + 1) &&& Result.WA ≠ 0) && sc)) := by
          simp [gradeLoopEvs, hab]
        rw [hevs, resultCaseNums_step]
        refine ⟨List.pairwise_cons.mpr ⟨hlb, hpw⟩, ?_⟩
        intro x hx
        rcases List.mem_cons.mp hx with h | h
        · omega
        · have := hlb x h; omega

/-- A successful run over one batch containing two cases. -/
def c8run : WorkerRun :=
  { compile := CompileOutcome.ok false
    cases := [PCase.batched 2]
    shortCircuit := false
    gradeFlag := fun _ => Result.AC
    abortAt := none }

/-- C8 counterexample: grading a single batch of two cases emits
`BATCH_BEGIN(1)` twice (once around each inner case), so the batch's
cases are not wrapped by a single `BATCH_BEGIN(1)`/`BATCH_END(1)` pair
at the batch's boundaries as the claim states. -/
theorem c8_single_wrap_cex :
    (workerEvents c8run).count (Ev.batchBegin 1) = 2 ∧
    ¬ ((workerEvents c8run).count (Ev.batchBegin 1) = 1) := by
  decide

/-- C8 amended: in every exception-free worker run, each batched case is
individually wrapped in a `BATCH_BEGIN(n)`/`BATCH_END(n)` pair whose
`RESULT` carries the same batch number (so every `BATCH_BEGIN(n)` is
matched by `BATCH_END(n)` before the next `BATCH_BEGIN` or
`GRADING_END`, except for the one dangling `BATCH_BEGIN` an abort during
a batched case leaves directly before `GRADING_ABORTED`), and the
`RESULT` events appear with strictly increasing case numbers, so a
batch's results are contiguous and in case order. -/
theorem c8_batch_structure (run : WorkerRun) :
    wellBatched (workerEvents run) = true ∧
    List.Pairwise (· < ·) (resultCaseNums (workerEvents run)) := by
  unfold workerEvents
  cases run.compile with
  | err => exact ⟨rfl, by simp [resultCaseNums]⟩
  | ok warn =>
    constructor
    · have h := wellBatched_loop run.gradeFlag (abortObs run.abortAt)
        run.shortCircuit (flattenCases run.cases 0) 0 false
      cases warn <;> simpa [wellBatched] using h
    · have h := (resultCaseNums_loop run.gradeFlag (abortObs run.abortAt)
        run.shortCircuit (flattenCases run.cases 0) 0 false).1
      cases warn <;>
        · simp only [resultCaseNums, List.filterMap_append, List.filterMap_cons] at h ⊢
          simpa using h

/-- Membership in one loop iteration's events lifts any membership in the
remaining events. -/
theorem mem_loopStep (b : Option Nat) (cn f : Nat) (l : List Ev) (e : Ev)
    (h : e ∈ l) :
    e ∈ (match b with | some n => [Ev.batchBegin n] | none => ([] : List Ev)) ++
      Ev.result b cn f ::
        ((match b with | some n => [Ev.batchEnd n] | none => ([] : List Ev)) ++ l) := by
  cases b <;> simp [h]

/-- The iteration's own `RESULT` event belongs to its events. -/
theorem mem_loopStep_self (b : Option Nat) (cn f : Nat) (l : List Ev) :
    Ev.result b cn f ∈
      (match b with | some n => [Ev.batchBegin n] | none => ([] : List Ev)) ++
        Ev.result b cn f ::
          ((match b with | some n => [Ev.batchEnd n] | none => ([] : List Ev)) ++ l) := by
  cases b <;> simp

/-- Once the loop is short-circuiting, every remaining case number gets a
`RESULT` event carrying exactly the SC flag. -/
theorem scPhase_mem (g : Nat → Nat) (ab : Nat → Bool) (sc : Bool)
    (flat : List (Option Nat)) : ∀ (caseNo i : Nat), caseNo < i →
    i ≤ caseNo + flat.length →
    ∃ b, Ev.result b i Result.SC ∈ gradeLoopEvs g ab sc flat caseNo true := by
  induction flat with
  | nil => intro caseNo i h1 h2; simp at h2; omega
  | cons b rest ih =>
    intro caseNo i h1 h2
    simp only [List.length_cons] at h2
    have hevs : gradeLoopEvs g ab sc (b :: rest) caseNo true =
        (match b with | some n => [Ev.batchBegin n] | none => ([] : List Ev)) ++
          Ev.result b (caseNo + 1) Result.SC ::
            ((match b with | some n => [Ev.batchEnd n] | none => ([] : List Ev)) ++
              gradeLoopEvs g ab sc rest (caseNo + 1) true) := by
      simp [gradeLoopEvs]
    rw [hevs]
    by_cases hi : i = caseNo + 1
    · exact ⟨b, by rw [← hi]; exact mem_loopStep_self b i Result.SC _⟩
    · have h3 : caseNo + 1 < i := by omega
      have h4 : i ≤ caseNo + 1 + rest.length := by omega
      obtain ⟨b2, hmem⟩ := ih (caseNo + 1) i h3 h4
      exact ⟨b2, mem_loopStep _ _ _ _ _ hmem⟩

/-- Once the loop is short-circuiting, the grader is never invoked
again. -/
theorem scPhase_run (g : Nat → Nat) (ab : Nat → Bool) (sc : Bool)
    (flat : List (Option Nat)) : ∀ (caseNo : Nat),
    gradeLoopRun g ab sc flat caseNo true = [] := by
  induction flat with
  | nil => intro caseNo; rfl
  | cons b rest ih => intro caseNo; simpa [gradeLoopRun] using ih (caseNo + 1)

/-- Core induction for the short-circuit claim: if no abort is observed
up to case `k`, the cases before `k` carry no WA flag and case `k`
does, then with `short_circuit` set every later case number within the
run gets a pure-SC `RESULT` and is never graded. -/
theorem scMain (g : Nat → Nat) (ab : Nat → Bool) (k : Nat)
    (flat : List (Option Nat)) : ∀ (caseNo : Nat),
    (∀ j, caseNo < j → j ≤ k → ab j = false) →
    (∀ j, caseNo < j → j < k → g j &&& Result.WA = 0) →
    g k &&& Result.WA ≠ 0 →
    caseNo < k → k ≤ caseNo + flat.length →
    ∀ i, k < i → i ≤ caseNo + flat.length →
    (∃ b, Ev.result b i Result.SC ∈ gradeLoopEvs g ab true flat caseNo false) ∧
    i ∉ gradeLoopRun g ab true flat caseNo false := by
  induction flat with
  | nil => intro caseNo _ _ _ hck hkn; simp at hkn; omega
  | cons b rest ih =>
    intro caseNo hab hwa hgk hck hkn i hki hin
    simp only [List.length_cons] at hkn hin
    have habc : ab (caseNo + 1) = false := hab _ (by omega) (by omega)
    have hkn2 : k ≤ caseNo + 1 + rest.length := by omega
    have hin2 : i ≤ caseNo + 1 + rest.length := by omega
    by_cases hek : caseNo + 1 = k
    · have hg : decide (g (caseNo + 1) &&& Result.WA ≠ 0) = true := by
        rw [hek]; exact decide_eq_true hgk
      have hevs : gradeLoopEvs g ab true (b :: rest) caseNo false =
          (match b with | some n => [Ev.batchBegin n] | none => ([] : List Ev)) ++
            Ev.result b (caseNo + 1) (g (caseNo + 1)) ::
              ((match b with | some n => [Ev.batchEnd n] | none => ([] : List Ev)) ++
                gradeLoopEvs g ab true rest (caseNo + 1) true) := by
        simp [gradeLoopEvs, habc, hg]
      have hrun : gradeLoopRun g ab true (b :: rest) caseNo false =
          (caseNo + 1) :: gradeLoopRun g ab true rest (caseNo + 1) true := by
        simp [gradeLoopRun, habc, hg]
      constructor
      · obtain ⟨b2, hmem⟩ := scPhase_mem g ab true rest (caseNo + 1) i (by omega) hin2
        exact ⟨b2, by rw [hevs]; exact mem_loopStep _ _ _ _ _ hmem⟩
      · rw [hrun, scPhase_run]
        simp
        omega
    · have hwac : g (caseNo + 1) &&& Result.WA = 0 := hwa _ (by omega) (by omega)
      have hg : decide (g (caseNo + 1) &&& Result.WA ≠ 0) = false := by
        simp [hwac]
      have hevs : gradeLoopEvs g ab true (b :: rest) caseNo false =
          (match b with | some n => [Ev.batchBegin n] | none => ([] : List Ev)) ++
            Ev.result b (caseNo + 1) (g (caseNo + 1)) ::
              ((match b with | some n => [Ev.batchEnd n] | none => ([] : List Ev)) ++
                gradeLoopEvs g ab true rest (caseNo + 1) false) := by
        simp [gradeLoopEvs, habc, hg]
      have hrun : gradeLoopRun g ab true (b :: rest) caseNo false =
          (caseNo + 1) :: gradeLoopRun g ab true rest (caseNo + 1) false := by
        simp [gradeLoopRun, habc, hg]
      obtain ⟨⟨b2, hmem⟩, hnin⟩ := ih (caseNo + 1)
        (fun j h1 h2 => hab j (by omega) h2)
        (fun j h1 h2 => hwa j (by omega) h2)
        hgk (by omega) hkn2 i hki hin2
      refine ⟨⟨b2, by rw [hevs]; exact mem_loopStep _ _ _ _ _ hmem⟩, ?_⟩
      rw [hrun]
      simp only [List.mem_cons, not_or]
      exact ⟨by omega, hnin⟩

/-- C4: in a compile-successful run with `submission.short_circuit` set,
if the grader's results always carry exactly one of AC/WA (as
`StandardGrader.grade` guarantees), case `k` is the first whose result
is not AC, and no abort request is observed up to case `k`, then every
later case `i` in the run gets a `RESULT` whose `result_flag` is the SC
flag, and no child process is launched for it (its case number is absent
from the list of grader invocations). -/
theorem c4_short_circuit (run : WorkerRun) (warn : Bool) (k : Nat)
    (hcompile : run.compile = CompileOutcome.ok warn)
    (hsc : run.shortCircuit = true)
    (hbridge : ∀ j, (run.gradeFlag j &&& Result.AC = 0 ↔
      run.gradeFlag j &&& Result.WA ≠ 0))
    (hfirst : run.gradeFlag k &&& Result.AC = 0)
    (hbefore : ∀ j, 1 ≤ j → j < k → run.gradeFlag j &&& Result.AC ≠ 0)
    (hnoabort : ∀ j, j ≤ k → abortObs run.abortAt j = false)
    (hk1 : 1 ≤ k) (hkN : k ≤ (flattenCases run.cases 0).length) :
    ∀ i, k < i → i ≤ (flattenCases run.cases 0).length →
      (∃ b, Ev.result b i Result.SC ∈ workerEvents run) ∧
      i ∉ workerGraded run := by
  intro i hki hiN
  have hgk : run.gradeFlag k &&& Result.WA ≠ 0 := (hbridge k).mp hfirst
  have hwa : ∀ j, 0 < j → j < k → run.gradeFlag j &&& Result.WA = 0 := by
    intro j h1 h2
    by_contra hne
    exact hbefore j h1 h2 ((hbridge j).mpr hne)
  obtain ⟨⟨b2, hmem⟩, hnin⟩ := scMain run.gradeFlag (abortObs run.abortAt) k
    (flattenCases run.cases 0) 0
    (fun j h1 h2 => hnoabort j h2) hwa hgk (by omega) (by omega)
    i hki (by omega)
  rw [← hsc] at hmem hnin
  constructor
  · refine ⟨b2, ?_⟩
    unfold workerEvents
    rw [hcompile]
    cases warn <;> simp [hmem]
  · unfold workerGraded
    rw [hcompile]
    exact hnin

/-- A three-case short-circuiting run whose first case fails with WA. -/
def c4run : WorkerRun :=
  { compile := CompileOutcome.ok false
    cases := [PCase.plain, PCase.plain, PCase.plain]
    shortCircuit := true
    gradeFlag := fun j => if j = 1 then Result.WA else Result.AC
    abortAt := none }

/-- C4 witness: in `c4run` the first case fails, so case 2 receives a
pure-SC `RESULT` and is never graded. -/
theorem c4_short_circuit_witness :
    (∃ b, Ev.result b 2 Result.SC ∈ workerEvents c4run) ∧ 2 ∉ workerGraded c4run :=
  c4_short_circuit c4run false 1 rfl rfl
    (by intro j; by_cases h : j = 1 <;> simp [c4run, h] <;> decide)
    (by decide)
    (fun j h1 h2 => absurd h2 (by omega))
    (fun j _ => rfl)
    (by decide) (by decide) 2 (by decide) (by decide)
